import Mathlib

/-!
Verification of the mabl MCP proxy core (worker supervisor, session broker,
correlation router) against its natural-language specification.

The embedding is a shallow model of the TypeScript sources:

* `extractLines` / `handleStdout` / `feedAll` model the newline framer of
  `MablCli.handleStdout` and `MablCli.processLine` (src/mablCli.ts).
* `CliState` / `cliStep` model the worker supervisor lifecycle
  (`stop`, the `exit` listener and `scheduleRestart` in src/mablCli.ts).
* `BrokerState` with `attach`, `sendEvent`, `broadcastEvent`, `sweep` and
  `fireClose` model the `SseBroker` class (current revision embedded in
  src/mablCli.ts; identical logic in the older sse.ts revision).
* Namespace `ServerA` models the `createServer` revision that has no inline
  HTTP responder (`clearPending`, its `messageHandler`, its timeout callback,
  the `cli.on message` and `cli.on exit` listeners).
* Namespace `ServerB` models the `createServer` revision with the
  take-if-present `removePending` and the optional `httpResponder`.

JavaScript `Map` objects are modelled as association lists in insertion
order (`mapGet`, `mapSet`, `mapDelete`); `setTimeout` handles are modelled
as explicit armed-timer identifiers so that firing, `clearTimeout` and the
races between response resolution, timeout and worker exit are explicit
transitions.  Timestamps are integers (milliseconds).  `JSON.parse` is an
abstract parameter of the framer: the framing laws hold for every parser.
-/

namespace MablProxy

/-! ## Line framing (MablCli.handleStdout / processLine) -/

/-- Whitespace characters removed by JavaScript `String.prototype.trim`
(the code points that occur in practice on a JSON line: space, tab,
line feed, carriage return, vertical tab, form feed). -/
def isJsWhitespace (c : Char) : Bool :=
  c == ' ' || c == '\t' || c == '\n' || c == '\r' || c == '\x0b' || c == '\x0c'

/-- Trim of `String.prototype.trim`, on a list of characters. -/
def jsTrim (l : List Char) : List Char :=
  ((l.dropWhile isJsWhitespace).reverse.dropWhile isJsWhitespace).reverse

/-- Split a buffer into its complete newline-terminated lines (in order,
newline removed) and the trailing partial line.  This is exactly what the
`while (newlineIndex !== -1)` loop of `MablCli.handleStdout` extracts from
the accumulated `stdoutBuffer`. -/
def extractLines : List Char → List (List Char) × List Char
  | [] => ([], [])
  | c :: rest =>
    let r := extractLines rest
    if c = '\n' then
      ([] :: r.1, r.2)
    else
      match r with
      | ([], rem) => ([], c :: rem)
      | (l :: ls, rem) => ((c :: l) :: ls, rem)

/-- One stdout `data` chunk fed to the framer: the chunk is appended to the
buffer, every complete line is trimmed and, if non-empty, handed to
`processLine`, which parses it (`JSON.parse`, modelled by the abstract
`parse`) and emits the parse result; malformed lines are dropped.
Returns the new buffer and the emitted messages, in order. -/
def handleStdout {α : Type} (parse : List Char → Option α)
    (buf chunk : List Char) : List Char × List α :=
  let r := extractLines (buf ++ chunk)
  (r.2, r.1.filterMap (fun l =>
    let t := jsTrim l
    if t = [] then none else parse t))

/-- Feed a sequence of stdout chunks one at a time, collecting all emitted
messages in order. -/
def feedAll {α : Type} (parse : List Char → Option α)
    (buf : List Char) : List (List Char) → List Char × List α
  | [] => (buf, [])
  | c :: cs =>
    let r1 := handleStdout parse buf c
    let r2 := feedAll parse r1.1 cs
    (r2.1, r1.2 ++ r2.2)

/-! ## Worker supervisor lifecycle (MablCli) -/

/-- Supervisor state, abstracting the fields of `MablCli` that drive its
lifecycle: `closed` (set by `stop`), `restarting`, whether a live child
process handle exists, the restart counter, whether a `scheduleRestart`
call is currently suspended in `await delay(delayMs)`, and a count of
`spawnCli` completions (how many worker processes were ever spawned). -/
structure CliState where
  closed : Bool
  restarting : Bool
  childAlive : Bool
  restarts : Nat
  delayPending : Bool
  spawnCount : Nat
deriving DecidableEq, Repr

/-- Events that drive the supervisor: the child process exits, `stop()` is
called, or a pending restart delay elapses. -/
inductive CliEvent
  | childExit
  | stopCall
  | delayElapsed
deriving DecidableEq, Repr

/-- One supervisor transition, mirroring the source: the `exit` listener
nulls the child, returns at once when `closed`, and otherwise enters
`scheduleRestart`, which returns when `restarting || closed` and otherwise
sets `restarting` and suspends in `await delay`; `stop()` sets `closed`,
removes listeners and kills the child but does not cancel a delay already
in flight; when the delay elapses, `scheduleRestart` resumes after the
`await` — without re-checking `closed` — increments `restarts` and runs
`spawnCli`, which installs a new child and clears `restarting`. -/
def cliStep (s : CliState) : CliEvent → Option CliState
  | .childExit =>
    if s.childAlive then
      let s1 := { s with childAlive := false }
      if s1.closed then some s1
      else if s1.restarting then some s1
      else some { s1 with restarting := true, delayPending := true }
    else none
  | .stopCall =>
    some { s with closed := true, childAlive := false }
  | .delayElapsed =>
    if s.delayPending then
      some { s with delayPending := false, restarts := s.restarts + 1,
                    spawnCount := s.spawnCount + 1, childAlive := true,
                    restarting := false }
    else none

/-- Run a sequence of supervisor events from a state. -/
def cliRun (s : CliState) : List CliEvent → Option CliState
  | [] => some s
  | e :: es =>
    match cliStep s e with
    | some s1 => cliRun s1 es
    | none => none

/-! ## Association-list model of JavaScript Map -/

/-- Lookup in a JavaScript `Map` (first — and, in reachable states, only —
binding of the key). -/
def mapGet {α : Type} (m : List (String × α)) (k : String) : Option α :=
  match m.find? (fun e => e.1 == k) with
  | some e => some e.2
  | none => none

/-- Update of `Map.prototype.set`: replace the binding in place when the key
is present, otherwise append the new binding at the end (insertion order). -/
def mapSet {α : Type} (m : List (String × α)) (k : String) (v : α) :
    List (String × α) :=
  match m with
  | [] => [(k, v)]
  | e :: t => if e.1 == k then (k, v) :: t else e :: mapSet t k v

/-- Removal of `Map.prototype.delete` (drops every binding of the key; in
reachable states keys are unique, so at most one binding exists). -/
def mapDelete {α : Type} (m : List (String × α)) (k : String) :
    List (String × α) :=
  m.filter (fun e => e.1 != k)

/-! ## Request identifiers and payloads -/

/-- Shape of the `id` member of a JSON object, as far as `getRequestId`
distinguishes it: absent (`undefined` or `null`), a string, a number, or
present with any other type. -/
inductive IdField
  | absent
  | str (s : String)
  | num (n : Int)
  | invalid
deriving DecidableEq, Repr

/-- Extraction function `getRequestId` of server.ts: absent ids give
`none`, string and numeric ids are normalized to a string, and any other
type throws. -/
def getRequestId : IdField → Except String (Option String)
  | .absent => .ok none
  | .str s => .ok (some s)
  | .num n => .ok (some (toString n))
  | .invalid => .error "Field body.id must be a string or number when present."

/-- A JSON-RPC style object body: its `id` member plus an abstract tag
standing for the rest of its content. -/
structure RpcBody where
  pid : IdField
  tag : Nat
deriving DecidableEq, Repr

/-- A parsed JSON value emitted by the worker: either an object (which
passes the `isRecord` guard of the `cli.on message` listener) or a
non-object value (string, number, boolean, `null`), which fails it. -/
inductive CliPayload
  | obj (b : RpcBody)
  | nonObj (tag : Nat)
deriving DecidableEq, Repr

/-- Synthetic JSON-RPC error payload built by `buildProxyErrorPayload`. -/
structure ProxyErrorPayload where
  id : String
  message : String
  code : Int
deriving DecidableEq, Repr

/-- Constructor `buildProxyErrorPayload(id, message, code = -32000)`. -/
def buildProxyErrorPayload (id message : String) (code : Int := -32000) :
    ProxyErrorPayload :=
  { id := id, message := message, code := code }

/-- Body carried inside an SSE `message` event: either a worker payload or
a synthetic proxy error payload. -/
inductive BodyVal
  | worker (p : CliPayload)
  | proxyError (e : ProxyErrorPayload)
deriving DecidableEq, Repr

/-- Data object written for an SSE named event by the router: the
envelope `session` plus `body`. -/
structure EventData where
  session : String
  body : BodyVal
deriving DecidableEq, Repr

/-! ## Session broker (SseBroker) -/

/-- One registered SSE client: its session id, the identity of the
underlying response stream, and the two timestamps kept by the broker. -/
structure SseClient where
  sessionId : String
  streamId : Nat
  connectedAt : Int
  lastEventAt : Int
deriving DecidableEq, Repr

/-- Broker state: the `clients` map in insertion order, plus the set of
`close`/`error` handlers ever registered on a response stream (each handler
captures the session id resolved at `attach` time and, when the stream's
close event fires, runs `removeClient` for that session id).  Handlers
survive the removal of the client they were registered for, exactly as in
the source. -/
structure BrokerState where
  clients : List (String × SseClient)
  closeHandlers : List (Nat × String)
deriving DecidableEq, Repr

/-- Observable writes on SSE response streams. -/
inductive SseWrite
  | ready (streamId : Nat) (sessionId : String)
  | event (streamId : Nat) (eventName : String) (data : EventData)
  | heartbeat (streamId : Nat) (now : Int)
  | endStream (streamId : Nat)
deriving DecidableEq, Repr

/-- Broker operation `attach(res, sessionId?)`: resolve the session id
(generating a fresh one when absent or empty), end any pre-existing stream
registered under that id, register the new client, write the initial
`ready` event, and register the close/error handler that deregisters the
session id when the new stream closes. -/
def attach (st : BrokerState) (streamId : Nat) (sessionId? : Option String)
    (freshUuid : String) (now : Int) : BrokerState × List SseWrite :=
  let resolved :=
    match sessionId? with
    | some s => if s.length > 0 then s else freshUuid
    | none => freshUuid
  let endWrites :=
    match mapGet st.clients resolved with
    | some existing => [SseWrite.endStream existing.streamId]
    | none => []
  let client : SseClient :=
    { sessionId := resolved, streamId := streamId,
      connectedAt := now, lastEventAt := now }
  ({ clients := mapSet st.clients resolved client,
     closeHandlers := st.closeHandlers ++ [(streamId, resolved)] },
   endWrites ++ [SseWrite.ready streamId resolved])

/-- Environment transition: the close (or error) event of a response stream
fires, running every close handler registered for that stream; each handler
calls `removeClient` with its captured session id — without checking that
the client currently registered under that id still uses this stream. -/
def fireClose (st : BrokerState) (streamId : Nat) : BrokerState :=
  { st with
    clients := st.closeHandlers.foldl
      (fun cs h => if h.1 == streamId then mapDelete cs h.2 else cs)
      st.clients }

/-- Broker operation `send(sessionId, event, payload)`: a no-op when the
session has no registered client, otherwise `writeEvent`, which writes the
named event and updates the client's `lastEventAt`. -/
def sendEvent (st : BrokerState) (sid eventName : String) (d : EventData)
    (now : Int) : BrokerState × List SseWrite :=
  match mapGet st.clients sid with
  | none => (st, [])
  | some c =>
    ({ st with clients := mapSet st.clients sid { c with lastEventAt := now } },
     [SseWrite.event c.streamId eventName d])

/-- One iteration of `broadcast(event, payloadBuilder)`: build this
session's payload and `writeEvent` it (the write plus the `lastEventAt`
update). -/
def broadcastStep (eventName : String) (build : String → EventData)
    (now : Int) (acc : BrokerState × List SseWrite) (e : String × SseClient) :
    BrokerState × List SseWrite :=
  ({ acc.1 with
     clients := mapSet acc.1.clients e.1 { e.2 with lastEventAt := now } },
   acc.2 ++ [SseWrite.event e.2.streamId eventName (build e.1)])

/-- Broker operation `broadcast(event, payloadBuilder)`: for every
registered client in insertion order, build that session's payload and
`writeEvent` it (updating `lastEventAt`). -/
def broadcastEvent (st : BrokerState) (eventName : String)
    (build : String → EventData) (now : Int) : BrokerState × List SseWrite :=
  st.clients.foldl (broadcastStep eventName build now) (st, [])

/-- One step of the heartbeat interval body: evict the client when
`now - lastEventAt > idleTimeoutMs` (end the stream, `removeClient`),
otherwise write the keep-alive heartbeat comment. -/
def sweepStep (idleTimeoutMs now : Int)
    (acc : BrokerState × List SseWrite) (e : String × SseClient) :
    BrokerState × List SseWrite :=
  if now - e.2.lastEventAt > idleTimeoutMs then
    ({ acc.1 with clients := mapDelete acc.1.clients e.1 },
     acc.2 ++ [SseWrite.endStream e.2.streamId])
  else
    (acc.1, acc.2 ++ [SseWrite.heartbeat e.2.streamId now])

/-- The heartbeat interval body of the `SseBroker` constructor: iterate over
every registered client, evicting idle ones and writing keep-alives to the
rest. -/
def sweep (st : BrokerState) (idleTimeoutMs now : Int) :
    BrokerState × List SseWrite :=
  st.clients.foldl (sweepStep idleTimeoutMs now) (st, [])

/-! ## Correlation router observables -/

/-- Bodies of HTTP responses produced by the message handler and by inline
responders. -/
inductive HttpBody
  | accepted
  | errorMsg (m : String)
  | proxyErr (e : ProxyErrorPayload)
  | worker (p : CliPayload)
deriving DecidableEq, Repr

/-- Outputs of a router transition: an SSE stream write or an HTTP
response (status code plus body). -/
inductive Out
  | sse (w : SseWrite)
  | http (status : Nat) (body : HttpBody)
deriving DecidableEq, Repr

deriving instance DecidableEq for Except

/-! ## Correlation router, revision A

The `createServer` revision whose pending entries carry no inline HTTP
responder: `clearPending` is the removal helper, the timeout callback
captures both the request id and the session and deletes the map entry
without a presence check, and forward failure rolls back with
`clearPending`.  The `cli.on exit` listener is letter-identical in both
revisions and is modelled here. -/

namespace ServerA

/-- A pending in-flight request of revision A: the owning session, the
creation timestamp, and the identity of the `setTimeout` handle armed for
it. -/
structure PendingEntry where
  sessionId : String
  startedAt : Int
  timerId : Nat
deriving DecidableEq, Repr

/-- Router state of revision A: the `pendingRequests` map, the armed
timeout timers (each carrying the request id and session captured by its
callback closure), a fresh-timer counter, and the session broker. -/
structure St where
  pending : List (String × PendingEntry)
  timers : List (Nat × String × String)
  nextTimer : Nat
  broker : BrokerState
deriving DecidableEq, Repr

/-- Removal helper `clearPending(id)`: when an entry is present under the
id, clear its timeout and delete it; otherwise do nothing. -/
def clearPending (st : St) (id : String) : St :=
  match mapGet st.pending id with
  | some p =>
    { st with pending := mapDelete st.pending id,
              timers := st.timers.filter (fun t => t.1 != p.timerId) }
  | none => st

/-- The POST message handler of revision A, after envelope extraction:
extract the optional request id (400 on an invalid id type); when an id is
present, arm a fresh timeout and register the pending entry (overwriting
any entry already stored under the id); then forward to the worker
(`cli.send`, outcome given by `sendOk`): success answers 202 accepted,
failure rolls back with `clearPending` and answers 503. -/
def messageHandler (st : St) (session : String) (body : RpcBody)
    (sendOk : Bool) (now : Int) : St × List Out :=
  match getRequestId body.pid with
  | .error m => (st, [Out.http 400 (HttpBody.errorMsg m)])
  | .ok rid? =>
    let st1 :=
      match rid? with
      | some rid =>
        { st with
          timers := st.timers ++ [(st.nextTimer, rid, session)],
          nextTimer := st.nextTimer + 1,
          pending := mapSet st.pending rid
            { sessionId := session, startedAt := now, timerId := st.nextTimer } }
      | none => st
    if sendOk then
      (st1, [Out.http 202 HttpBody.accepted])
    else
      let st2 :=
        match rid? with
        | some rid => clearPending st1 rid
        | none => st1
      (st2, [Out.http 503 (HttpBody.errorMsg "mabl CLI process unavailable.")])

/-- Firing of an armed timeout timer in revision A.  The result is `none`
when no timer with this identity is armed (a cleared timer cannot fire).
The callback body deletes the map entry under the captured request id
without any presence check and sends the synthetic timeout error to the
captured session. -/
def fireTimeout (st : St) (timerId : Nat) (now : Int) :
    Option (St × List Out) :=
  match st.timers.find? (fun t => t.1 == timerId) with
  | none => none
  | some t =>
    let rid := t.2.1
    let session := t.2.2
    let st0 := { st with timers := st.timers.filter (fun u => u.1 != timerId) }
    let st1 := { st0 with pending := mapDelete st0.pending rid }
    let d : EventData :=
      { session := session,
        body := BodyVal.proxyError
          (buildProxyErrorPayload rid
            "Timed out waiting for response from mabl CLI.") }
    let r := sendEvent st1.broker session "message" d now
    some ({ st1 with broker := r.1 }, r.2.map Out.sse)

/-- The `cli.on message` listener of revision A: non-object payloads are
logged and dropped; an invalid id type throws out of the listener; a known
pending id resolves the entry (`clearPending` then a targeted send to the
owning session); an unknown or absent id broadcasts the payload to every
attached session, the payload builder pairing each session id with the
payload. -/
def onMessage (st : St) (payload : CliPayload) (now : Int) :
    Except String (St × List Out) :=
  match payload with
  | .nonObj _ => .ok (st, [])
  | .obj b =>
    match getRequestId b.pid with
    | .error m => .error m
    | .ok idOpt =>
      match idOpt with
      | some id =>
        match mapGet st.pending id with
        | some p =>
          let st1 := clearPending st id
          let d : EventData :=
            { session := p.sessionId, body := BodyVal.worker payload }
          let r := sendEvent st1.broker p.sessionId "message" d now
          .ok ({ st1 with broker := r.1 }, r.2.map Out.sse)
        | none =>
          let r := broadcastEvent st.broker "message"
            (fun sid => { session := sid, body := BodyVal.worker payload }) now
          .ok ({ st with broker := r.1 }, r.2.map Out.sse)
      | none =>
        let r := broadcastEvent st.broker "message"
          (fun sid => { session := sid, body := BodyVal.worker payload }) now
        .ok ({ st with broker := r.1 }, r.2.map Out.sse)

/-- Accumulator of the `cli.on exit` listener's `forEach` body. -/
structure ExitAcc where
  timers : List (Nat × String × String)
  broker : BrokerState
  outs : List Out
deriving DecidableEq, Repr

/-- One iteration of the `cli.on exit` listener's `forEach`: clear the
entry's timeout and send the synthetic cancellation error (code -32001)
to the owning session. -/
def exitStep (now : Int) (acc : ExitAcc) (e : String × PendingEntry) :
    ExitAcc :=
  let timers := acc.timers.filter (fun t => t.1 != e.2.timerId)
  let d : EventData :=
    { session := e.2.sessionId,
      body := BodyVal.proxyError
        (buildProxyErrorPayload e.1
          "mabl CLI process restarted; request cancelled." (-32001)) }
  let r := sendEvent acc.broker e.2.sessionId "message" d now
  { timers := timers, broker := r.1, outs := acc.outs ++ r.2.map Out.sse }

/-- The `cli.on exit` listener: for every pending entry, clear its timeout
and deliver the cancellation error to its session, then clear the whole
pending map. -/
def onExit (st : St) (now : Int) : St × List Out :=
  let a := st.pending.foldl (exitStep now)
    { timers := st.timers, broker := st.broker, outs := [] }
  ({ st with pending := [], timers := a.timers, broker := a.broker }, a.outs)

end ServerA

/-! ## Correlation router, revision B

The `createServer` revision with the take-if-present `removePending` and
an optional inline HTTP responder on each pending entry (for protocol-native
submissions answered on the HTTP response itself). -/

namespace ServerB

/-- A pending in-flight request of revision B: as in revision A, plus
whether an inline HTTP responder is armed for it. -/
structure PendingEntry where
  sessionId : String
  startedAt : Int
  timerId : Nat
  hasResponder : Bool
deriving DecidableEq, Repr

/-- Router state of revision B.  Timeout callbacks of this revision
capture only the request id, so armed timers carry just that. -/
structure St where
  pending : List (String × PendingEntry)
  timers : List (Nat × String)
  nextTimer : Nat
  broker : BrokerState
deriving DecidableEq, Repr

/-- Removal helper `removePending(id)`: the single authoritative
take-if-present operation — when an entry is present under the id, clear
its timeout, delete it and return it; otherwise return nothing and leave
the state untouched. -/
def removePending (st : St) (id : String) : St × Option PendingEntry :=
  match mapGet st.pending id with
  | some p =>
    ({ st with pending := mapDelete st.pending id,
               timers := st.timers.filter (fun t => t.1 != p.timerId) },
     some p)
  | none => (st, none)

/-- The POST message handler of revision B, after `normalizeEnvelope`:
`respondInline` tells whether the caller expects the correlated result on
the HTTP response itself.  An id, when present, is registered with a fresh
timeout (the entry remembering the inline responder); forward success
answers 202 only for non-inline calls (inline calls stay open awaiting the
correlated result); forward failure removes the just-registered entry and
answers 503 — through the armed responder when one was registered, with a
plain error object otherwise. -/
def messageHandler (st : St) (session : String) (body : RpcBody)
    (respondInline : Bool) (sendOk : Bool) (now : Int) : St × List Out :=
  match getRequestId body.pid with
  | .error m => (st, [Out.http 400 (HttpBody.errorMsg m)])
  | .ok rid? =>
    let inlineResponse := respondInline && rid?.isSome
    let st1 :=
      match rid? with
      | some rid =>
        { st with
          timers := st.timers ++ [(st.nextTimer, rid)],
          nextTimer := st.nextTimer + 1,
          pending := mapSet st.pending rid
            { sessionId := session, startedAt := now,
              timerId := st.nextTimer, hasResponder := inlineResponse } }
      | none => st
    if sendOk then
      if inlineResponse then (st1, [])
      else (st1, [Out.http 202 HttpBody.accepted])
    else
      match rid? with
      | some rid =>
        let r := removePending st1 rid
        let viaResponder :=
          match r.2 with
          | some p => p.hasResponder
          | none => false
        let outs1 :=
          if viaResponder then
            [Out.http 503 (HttpBody.proxyErr
              (buildProxyErrorPayload rid "mabl CLI process unavailable."))]
          else []
        let outs2 :=
          if !inlineResponse && !viaResponder then
            [Out.http 503 (HttpBody.errorMsg "mabl CLI process unavailable.")]
          else if inlineResponse && !viaResponder then
            [Out.http 503 (HttpBody.proxyErr
              (buildProxyErrorPayload rid "mabl CLI process unavailable."))]
          else []
        (r.1, outs1 ++ outs2)
      | none =>
        (st1, [Out.http 503 (HttpBody.errorMsg "mabl CLI process unavailable.")])

/-- Firing of an armed timeout timer in revision B.  `none` when no timer
with this identity is armed.  The callback runs `removePending` on the
captured request id and returns at once when nothing was pending;
otherwise it answers 504 through the inline responder when one is armed
and sends the synthetic timeout error to the owning session's stream. -/
def fireTimeout (st : St) (timerId : Nat) (now : Int) :
    Option (St × List Out) :=
  match st.timers.find? (fun t => t.1 == timerId) with
  | none => none
  | some t =>
    let rid := t.2
    let st0 := { st with timers := st.timers.filter (fun u => u.1 != timerId) }
    let r0 := removePending st0 rid
    match r0.2 with
    | none => some (r0.1, [])
    | some p =>
      let tp := buildProxyErrorPayload rid
        "Timed out waiting for response from mabl CLI."
      let httpOuts :=
        if p.hasResponder then [Out.http 504 (HttpBody.proxyErr tp)] else []
      let d : EventData :=
        { session := p.sessionId, body := BodyVal.proxyError tp }
      let r := sendEvent r0.1.broker p.sessionId "message" d now
      some ({ r0.1 with broker := r.1 }, httpOuts ++ r.2.map Out.sse)

/-- The `cli.on message` listener of revision B: non-object payloads are
logged and dropped; an invalid id type throws out of the listener; a known
pending id is taken with `removePending`, answered through the inline
responder when one is armed (200 with the payload), and sent to the owning
session's stream; an unknown or absent id broadcasts the payload to every
attached session. -/
def onMessage (st : St) (payload : CliPayload) (now : Int) :
    Except String (St × List Out) :=
  match payload with
  | .nonObj _ => .ok (st, [])
  | .obj b =>
    match getRequestId b.pid with
    | .error m => .error m
    | .ok idOpt =>
      match idOpt with
      | some id =>
        let r0 := removePending st id
        match r0.2 with
        | some p =>
          let httpOuts :=
            if p.hasResponder then [Out.http 200 (HttpBody.worker payload)]
            else []
          let d : EventData :=
            { session := p.sessionId, body := BodyVal.worker payload }
          let r := sendEvent r0.1.broker p.sessionId "message" d now
          .ok ({ r0.1 with broker := r.1 }, httpOuts ++ r.2.map Out.sse)
        | none =>
          let r := broadcastEvent st.broker "message"
            (fun sid => { session := sid, body := BodyVal.worker payload }) now
          .ok ({ st with broker := r.1 }, r.2.map Out.sse)
      | none =>
        let r := broadcastEvent st.broker "message"
          (fun sid => { session := sid, body := BodyVal.worker payload }) now
        .ok ({ st with broker := r.1 }, r.2.map Out.sse)

/-- Accumulator of the `cli.on exit` listener's `forEach` body. -/
structure ExitAcc where
  timers : List (Nat × String)
  broker : BrokerState
  outs : List Out
deriving DecidableEq, Repr

/-- One iteration of the `cli.on exit` listener's `forEach`: clear the
entry's timeout and send the synthetic cancellation error (code -32001)
to the owning session. -/
def exitStep (now : Int) (acc : ExitAcc) (e : String × PendingEntry) :
    ExitAcc :=
  let timers := acc.timers.filter (fun t => t.1 != e.2.timerId)
  let d : EventData :=
    { session := e.2.sessionId,
      body := BodyVal.proxyError
        (buildProxyErrorPayload e.1
          "mabl CLI process restarted; request cancelled." (-32001)) }
  let r := sendEvent acc.broker e.2.sessionId "message" d now
  { timers := timers, broker := r.1, outs := acc.outs ++ r.2.map Out.sse }

/-- The `cli.on exit` listener: for every pending entry, clear its timeout
and deliver the cancellation error to its session, then clear the whole
pending map. -/
def onExit (st : St) (now : Int) : St × List Out :=
  let a := st.pending.foldl (exitStep now)
    { timers := st.timers, broker := st.broker, outs := [] }
  ({ st with pending := [], timers := a.timers, broker := a.broker }, a.outs)

end ServerB

/-! ## Lemmas about the map model -/

theorem mapGet_nil {α : Type} (k : String) :
    mapGet ([] : List (String × α)) k = none := rfl

theorem mapGet_cons {α : Type} (e : String × α) (t : List (String × α))
    (k : String) :
    mapGet (e :: t) k = if e.1 = k then some e.2 else mapGet t k := by
  by_cases h : e.1 = k
  · unfold mapGet
    rw [List.find?_cons_of_pos _ (by simp [h])]
    simp [h]
  · unfold mapGet
    rw [List.find?_cons_of_neg _ (by simp [h])]
    simp [h]

theorem mapGet_some_mem {α : Type} {m : List (String × α)} {k : String}
    {v : α} (h : mapGet m k = some v) : (k, v) ∈ m := by
  unfold mapGet at h
  rcases hf : List.find? (fun e => e.1 == k) m with _ | e
  · rw [hf] at h; cases h
  · rw [hf] at h
    injection h with hv
    have hm := List.mem_of_find?_eq_some hf
    have hp := List.find?_some hf
    simp only [beq_iff_eq] at hp
    have he : (k, v) = e := by
      rw [← hp, ← hv]
    rw [he]
    exact hm

theorem mapGet_eq_none {α : Type} {m : List (String × α)} {k : String}
    (h : mapGet m k = none) : ∀ e ∈ m, e.1 ≠ k := by
  intro e he
  unfold mapGet at h
  rcases hf : List.find? (fun x => x.1 == k) m with _ | x
  · have := List.find?_eq_none.mp hf e he
    simpa using this
  · rw [hf] at h; cases h

theorem mapGet_mapSet_self {α : Type} (m : List (String × α)) (k : String)
    (v : α) : mapGet (mapSet m k v) k = some v := by
  induction m with
  | nil => simp [mapSet, mapGet_cons]
  | cons e t ih =>
    by_cases h : e.1 = k
    · simp [mapSet, h, mapGet_cons]
    · simp [mapSet, h, mapGet_cons, ih]

theorem mapGet_mapSet_ne {α : Type} (m : List (String × α)) {k k' : String}
    (v : α) (h : k' ≠ k) : mapGet (mapSet m k v) k' = mapGet m k' := by
  have hk : ¬ k = k' := fun hh => h hh.symm
  induction m with
  | nil => simp [mapSet, mapGet_cons, mapGet_nil, hk]
  | cons e t ih =>
    by_cases he : e.1 = k
    · have h1 : ¬ e.1 = k' := by rw [he]; exact hk
      simp [mapSet, he, mapGet_cons, hk, h1]
    · simp [mapSet, he, mapGet_cons, ih]

theorem mapDelete_cons {α : Type} (e : String × α) (t : List (String × α))
    (k : String) :
    mapDelete (e :: t) k =
      if e.1 = k then mapDelete t k else e :: mapDelete t k := by
  by_cases h : e.1 = k
  · unfold mapDelete
    rw [List.filter_cons_of_neg (by simp [h]), if_pos h]
  · unfold mapDelete
    rw [List.filter_cons_of_pos (by simp [h]), if_neg h]

theorem mapGet_mapDelete_self {α : Type} (m : List (String × α))
    (k : String) : mapGet (mapDelete m k) k = none := by
  induction m with
  | nil => rfl
  | cons e t ih =>
    rw [mapDelete_cons]
    by_cases h : e.1 = k
    · rw [if_pos h]; exact ih
    · rw [if_neg h, mapGet_cons, if_neg h]; exact ih

theorem mapGet_mapDelete_ne {α : Type} (m : List (String × α))
    {k k' : String} (h : k' ≠ k) :
    mapGet (mapDelete m k) k' = mapGet m k' := by
  induction m with
  | nil => rfl
  | cons e t ih =>
    rw [mapDelete_cons]
    by_cases he : e.1 = k
    · have h1 : ¬ e.1 = k' := by rw [he]; exact fun hh => h hh.symm
      rw [if_pos he, mapGet_cons, if_neg h1]
      exact ih
    · rw [if_neg he, mapGet_cons, mapGet_cons]
      by_cases h2 : e.1 = k'
      · rw [if_pos h2, if_pos h2]
      · rw [if_neg h2, if_neg h2]; exact ih

theorem mapDelete_of_absent {α : Type} {m : List (String × α)} {k : String}
    (h : mapGet m k = none) : mapDelete m k = m := by
  have hk := mapGet_eq_none h
  unfold mapDelete
  rw [List.filter_eq_self]
  intro e he
  simpa using hk e he

theorem mapDelete_append_singleton {α : Type} {m : List (String × α)}
    {k : String} (v : α) (h : mapGet m k = none) :
    mapDelete (m ++ [(k, v)]) k = m := by
  unfold mapDelete
  rw [List.filter_append]
  have h1 : m.filter (fun e => e.1 != k) = m := mapDelete_of_absent h
  simp [h1]

theorem keys_nodup_entry_unique {α : Type} {m : List (String × α)}
    (hnd : (m.map Prod.fst).Nodup) {e f : String × α}
    (he : e ∈ m) (hf : f ∈ m) (hk : e.1 = f.1) : e = f := by
  induction m with
  | nil => cases he
  | cons a t ih =>
    simp only [List.map_cons, List.nodup_cons] at hnd
    rcases List.mem_cons.mp he with he1 | he1 <;>
      rcases List.mem_cons.mp hf with hf1 | hf1
    · rw [he1, hf1]
    · exfalso
      apply hnd.1
      rw [he1] at hk
      rw [hk]
      exact List.mem_map_of_mem Prod.fst hf1
    · exfalso
      apply hnd.1
      rw [hf1] at hk
      rw [← hk]
      exact List.mem_map_of_mem Prod.fst he1
    · exact ih hnd.2 he1 hf1

/-! ## Framing lemmas and claim C2 -/

theorem extractLines_snd_no_newline (s : List Char) :
    '\n' ∉ (extractLines s).2 := by
  induction s with
  | nil => simp [extractLines]
  | cons c t ih =>
    by_cases hc : c = '\n'
    · simpa [extractLines, hc] using ih
    · rcases hr : extractLines t with ⟨ls, rem⟩
      rw [hr] at ih
      cases ls with
      | nil =>
        simp [extractLines, hc, hr]
        exact ⟨fun h => hc h.symm, ih⟩
      | cons l ls' =>
        simpa [extractLines, hc, hr] using ih

theorem extractLines_no_newline {s : List Char} (h : '\n' ∉ s) :
    extractLines s = ([], s) := by
  induction s with
  | nil => rfl
  | cons c t ih =>
    have hc : c ≠ '\n' := fun hh => h (hh ▸ List.mem_cons_self c t)
    have ht : '\n' ∉ t := fun hh => h (List.mem_cons_of_mem c hh)
    simp [extractLines, hc, ih ht]

theorem extractLines_append (x y : List Char) :
    extractLines (x ++ y) =
      ((extractLines x).1 ++ (extractLines ((extractLines x).2 ++ y)).1,
       (extractLines ((extractLines x).2 ++ y)).2) := by
  induction x with
  | nil => simp [extractLines]
  | cons c t ih =>
    rw [List.cons_append]
    by_cases hc : c = '\n'
    · subst hc
      have hL : extractLines ('\n' :: (t ++ y)) =
          ([] :: (extractLines (t ++ y)).1, (extractLines (t ++ y)).2) := by
        simp [extractLines]
      have hR : extractLines ('\n' :: t) =
          ([] :: (extractLines t).1, (extractLines t).2) := by
        simp [extractLines]
      rw [hL, hR, ih]
      simp
    · rcases hr : extractLines t with ⟨ls, rem⟩
      rcases hb : extractLines (rem ++ y) with ⟨bl, br⟩
      rw [hr] at ih
      simp only at ih
      rw [hb] at ih
      simp only at ih
      cases ls with
      | nil =>
        have hct : extractLines (c :: t) = ([], c :: rem) := by
          simp [extractLines, hr, hc]
        cases bl with
        | nil =>
          have hL : extractLines (c :: (t ++ y)) = ([], c :: br) := by
            simp [extractLines, ih, hc]
          have hR : extractLines (c :: (rem ++ y)) = ([], c :: br) := by
            simp [extractLines, hb, hc]
          rw [hL, hct]
          simp [hR]
        | cons bh bt =>
          have hL : extractLines (c :: (t ++ y)) = ((c :: bh) :: bt, br) := by
            simp [extractLines, ih, hc]
          have hR : extractLines (c :: (rem ++ y)) = ((c :: bh) :: bt, br) := by
            simp [extractLines, hb, hc]
          rw [hL, hct]
          simp [hR]
      | cons l ls' =>
        have hct : extractLines (c :: t) = ((c :: l) :: ls', rem) := by
          simp [extractLines, hr, hc]
        have hL : extractLines (c :: (t ++ y)) = ((c :: l) :: (ls' ++ bl), br) := by
          simp [extractLines, ih, hc]
        rw [hL, hct]
        simp [hb]

theorem handleStdout_snd_no_newline {α : Type} (parse : List Char → Option α)
    (buf chunk : List Char) :
    '\n' ∉ (handleStdout parse buf chunk).1 := by
  simpa [handleStdout] using extractLines_snd_no_newline (buf ++ chunk)

theorem feedAll_eq_handleStdout {α : Type} (parse : List Char → Option α)
    (chunks : List (List Char)) :
    ∀ buf, '\n' ∉ buf →
      feedAll parse buf chunks = handleStdout parse buf chunks.flatten := by
  induction chunks with
  | nil =>
    intro buf hb
    simp [feedAll, handleStdout, extractLines_no_newline hb]
  | cons c cs ih =>
    intro buf _
    have h1 : '\n' ∉ (extractLines (buf ++ c)).2 :=
      extractLines_snd_no_newline (buf ++ c)
    have ih1 := ih ((extractLines (buf ++ c)).2) h1
    simp only [feedAll, handleStdout, List.flatten_cons] at ih1 ⊢
    rw [ih1, ← List.append_assoc, extractLines_append (buf ++ c) cs.flatten]
    simp [List.filterMap_append]

/-- C2: feeding a sequence of worker stdout chunks to the framer one at a
time emits the same sequence of parsed message events — and leaves the
same trailing partial-line buffer — as feeding their concatenation as one
chunk: partial lines stay buffered across chunk boundaries, every complete
newline-delimited line is trimmed and, when non-empty, handed to the
parser, and lines the parser rejects are dropped without emitting.  The
statement holds for every parser. -/
theorem c2_chunked_framing_agrees {α : Type} (parse : List Char → Option α)
    (chunks : List (List Char)) :
    feedAll parse [] chunks = handleStdout parse [] chunks.flatten :=
  feedAll_eq_handleStdout parse chunks [] (by simp)

/-! ## Claim C3: the supervisor after stop -/

/-- C3: the claim that no worker process is ever spawned after `stop()` is
violated by the code.  Starting from a running supervisor, the trace
worker-exit, then `stop()` while the restart delay is elapsing, then
delay-elapsed, ends in a state with `closed = true` and yet a freshly
spawned worker (`spawnCount = 1`, `childAlive = true`): `scheduleRestart`
checks `closed` only before its `await delay(...)` and spawns
unconditionally after it.  The third conjunct shows the intended guard
working in the one place it exists: a worker exit after `stop()` schedules
nothing. -/
theorem c3_stop_during_restart_delay_still_spawns :
    cliRun { closed := false, restarting := false, childAlive := true,
             restarts := 0, delayPending := false, spawnCount := 0 }
        [CliEvent.childExit, CliEvent.stopCall] =
      some { closed := true, restarting := true, childAlive := false,
             restarts := 0, delayPending := true, spawnCount := 0 }
    ∧ cliRun { closed := false, restarting := false, childAlive := true,
               restarts := 0, delayPending := false, spawnCount := 0 }
        [CliEvent.childExit, CliEvent.stopCall, CliEvent.delayElapsed] =
      some { closed := true, restarting := false, childAlive := true,
             restarts := 1, delayPending := false, spawnCount := 1 }
    ∧ cliStep { closed := true, restarting := false, childAlive := true,
                restarts := 0, delayPending := false, spawnCount := 0 }
        CliEvent.childExit =
      some { closed := true, restarting := false, childAlive := false,
             restarts := 0, delayPending := false, spawnCount := 0 } := by
  decide

/-! ## Claim C6: stream replacement -/

/-- C6: the claim that after replacing a session's stream the newly
attached stream keeps receiving events — including after the replaced
stream's close event fires — is violated by the code.  Attaching a second
stream for session `s` ends the first stream and leaves exactly the new
client registered, which does receive events; but when the replaced
stream's close event then fires, its close handler runs
`removeClient("s")`, which deregisters the NEW client, and a subsequent
send to `s` delivers nothing. -/
theorem c6_replacement_close_event_deregisters_new_stream :
    (attach (attach ⟨[], []⟩ 1 (some "s") "u1" 10).1 2 (some "s") "u2" 20).2 =
      [SseWrite.endStream 1, SseWrite.ready 2 "s"]
    ∧ (attach (attach ⟨[], []⟩ 1 (some "s") "u1" 10).1 2 (some "s") "u2" 20).1.clients =
      [("s", { sessionId := "s", streamId := 2, connectedAt := 20, lastEventAt := 20 })]
    ∧ (sendEvent (attach (attach ⟨[], []⟩ 1 (some "s") "u1" 10).1 2 (some "s") "u2" 20).1
        "s" "message" ⟨"s", BodyVal.worker (CliPayload.obj ⟨IdField.absent, 0⟩)⟩ 30).2 =
      [SseWrite.event 2 "message" ⟨"s", BodyVal.worker (CliPayload.obj ⟨IdField.absent, 0⟩)⟩]
    ∧ (fireClose (attach (attach ⟨[], []⟩ 1 (some "s") "u1" 10).1 2 (some "s") "u2" 20).1 1).clients = []
    ∧ (sendEvent (fireClose (attach (attach ⟨[], []⟩ 1 (some "s") "u1" 10).1 2 (some "s") "u2" 20).1 1)
        "s" "message" ⟨"s", BodyVal.worker (CliPayload.obj ⟨IdField.absent, 0⟩)⟩ 40).2 = [] := by
  decide

/-! ## Broker lemmas -/

theorem sendEvent_of_none {st : BrokerState} {sid : String}
    (eventName : String) (d : EventData) (now : Int)
    (h : mapGet st.clients sid = none) :
    sendEvent st sid eventName d now = (st, []) := by
  simp [sendEvent, h]

theorem sendEvent_of_some {st : BrokerState} {sid : String} {c : SseClient}
    (eventName : String) (d : EventData) (now : Int)
    (h : mapGet st.clients sid = some c) :
    sendEvent st sid eventName d now =
      ({ st with clients := mapSet st.clients sid { c with lastEventAt := now } },
       [SseWrite.event c.streamId eventName d]) := by
  simp [sendEvent, h]

theorem sendEvent_streamView (st : BrokerState) (sid eventName : String)
    (d : EventData) (now : Int) (k : String) :
    (mapGet (sendEvent st sid eventName d now).1.clients k).map SseClient.streamId =
      (mapGet st.clients k).map SseClient.streamId := by
  cases h : mapGet st.clients sid with
  | none => rw [sendEvent_of_none eventName d now h]
  | some c =>
    rw [sendEvent_of_some eventName d now h]
    by_cases hk : k = sid
    · subst hk
      show (mapGet (mapSet st.clients k _) k).map SseClient.streamId = _
      rw [mapGet_mapSet_self, h]
      rfl
    · show (mapGet (mapSet st.clients sid _) k).map SseClient.streamId = _
      rw [mapGet_mapSet_ne _ _ hk]

theorem broadcastFold_snd (eventName : String) (build : String → EventData)
    (now : Int) (l : List (String × SseClient)) :
    ∀ (s : BrokerState) (ws : List SseWrite),
      (l.foldl (broadcastStep eventName build now) (s, ws)).2 =
        ws ++ l.map (fun e => SseWrite.event e.2.streamId eventName (build e.1)) := by
  induction l with
  | nil => intro s ws; simp
  | cons e t ih =>
    intro s ws
    rw [List.foldl_cons]
    simp only [broadcastStep]
    rw [ih]
    simp

theorem broadcastEvent_snd (st : BrokerState) (eventName : String)
    (build : String → EventData) (now : Int) :
    (broadcastEvent st eventName build now).2 =
      st.clients.map (fun e => SseWrite.event e.2.streamId eventName (build e.1)) := by
  simpa using broadcastFold_snd eventName build now st.clients st []

theorem broadcastFold_get_not_mem (eventName : String)
    (build : String → EventData) (now : Int)
    (l : List (String × SseClient)) (k : String) :
    (∀ e ∈ l, e.1 ≠ k) →
    ∀ (s : BrokerState) (ws : List SseWrite),
      mapGet ((l.foldl (broadcastStep eventName build now) (s, ws)).1).clients k =
        mapGet s.clients k := by
  induction l with
  | nil => intro _ s ws; rfl
  | cons e t ih =>
    intro hk s ws
    have h1 : e.1 ≠ k := hk e (List.mem_cons_self e t)
    rw [List.foldl_cons]
    simp only [broadcastStep]
    rw [ih (fun f hf => hk f (List.mem_cons_of_mem e hf))]
    exact mapGet_mapSet_ne _ _ (fun hh => h1 hh.symm)

theorem broadcastFold_get_mem (eventName : String)
    (build : String → EventData) (now : Int)
    (l : List (String × SseClient)) (k : String) (c : SseClient) :
    (l.map Prod.fst).Nodup → (k, c) ∈ l →
    ∀ (s : BrokerState) (ws : List SseWrite),
      mapGet ((l.foldl (broadcastStep eventName build now) (s, ws)).1).clients k =
        some { c with lastEventAt := now } := by
  induction l with
  | nil => intro _ h; cases h
  | cons e t ih =>
    intro hnd hm s ws
    rw [List.map_cons, List.nodup_cons] at hnd
    rw [List.foldl_cons]
    simp only [broadcastStep]
    rcases List.mem_cons.mp hm with hm1 | hm1
    · have hkeys : ∀ f ∈ t, f.1 ≠ k := by
        intro f hf hfk
        apply hnd.1
        have hek : e.1 = k := by rw [← hm1]
        rw [hek, ← hfk]
        exact List.mem_map_of_mem Prod.fst hf
      rw [broadcastFold_get_not_mem eventName build now t k hkeys]
      rw [← hm1]
      exact mapGet_mapSet_self _ _ _
    · exact ih hnd.2 hm1 _ _

theorem broadcastEvent_get_mem (st : BrokerState) (eventName : String)
    (build : String → EventData) (now : Int) (k : String) (c : SseClient)
    (hnd : (st.clients.map Prod.fst).Nodup) (hm : (k, c) ∈ st.clients) :
    mapGet (broadcastEvent st eventName build now).1.clients k =
      some { c with lastEventAt := now } :=
  broadcastFold_get_mem eventName build now st.clients k c hnd hm st []

theorem sweepFold_fst (idleTimeoutMs now : Int)
    (l : List (String × SseClient)) :
    ∀ (s : BrokerState) (ws : List SseWrite),
      (l.foldl (sweepStep idleTimeoutMs now) (s, ws)).1 =
        { s with clients := l.foldl (fun cs e =>
            if now - e.2.lastEventAt > idleTimeoutMs then mapDelete cs e.1
            else cs) s.clients } := by
  induction l with
  | nil => intro s ws; rfl
  | cons e t ih =>
    intro s ws
    rw [List.foldl_cons, List.foldl_cons]
    by_cases hev : now - e.2.lastEventAt > idleTimeoutMs
    · simp only [sweepStep, if_pos hev]
      rw [ih]
    · simp only [sweepStep, if_neg hev]
      rw [ih]

theorem sweepFold_snd (idleTimeoutMs now : Int)
    (l : List (String × SseClient)) :
    ∀ (s : BrokerState) (ws : List SseWrite),
      (l.foldl (sweepStep idleTimeoutMs now) (s, ws)).2 =
        ws ++ l.map (fun e =>
          if now - e.2.lastEventAt > idleTimeoutMs then
            SseWrite.endStream e.2.streamId
          else SseWrite.heartbeat e.2.streamId now) := by
  induction l with
  | nil => intro s ws; simp
  | cons e t ih =>
    intro s ws
    rw [List.foldl_cons]
    by_cases hev : now - e.2.lastEventAt > idleTimeoutMs
    · simp only [sweepStep, if_pos hev]
      rw [ih]
      simp [hev]
    · simp only [sweepStep, if_neg hev]
      rw [ih]
      simp [hev]

theorem sweep_snd (st : BrokerState) (idleTimeoutMs now : Int) :
    (sweep st idleTimeoutMs now).2 =
      st.clients.map (fun e =>
        if now - e.2.lastEventAt > idleTimeoutMs then
          SseWrite.endStream e.2.streamId
        else SseWrite.heartbeat e.2.streamId now) := by
  simpa [sweep] using sweepFold_snd idleTimeoutMs now st.clients st []

theorem delFold_mapGet (idleTimeoutMs now : Int)
    (l : List (String × SseClient)) (k : String) :
    ∀ cs : List (String × SseClient),
      mapGet (l.foldl (fun cs e =>
          if now - e.2.lastEventAt > idleTimeoutMs then mapDelete cs e.1
          else cs) cs) k =
        if ∃ e ∈ l, now - e.2.lastEventAt > idleTimeoutMs ∧ e.1 = k then none
        else mapGet cs k := by
  induction l with
  | nil => intro cs; simp
  | cons e t ih =>
    intro cs
    rw [List.foldl_cons]
    simp only [List.exists_mem_cons_iff]
    by_cases hev : now - e.2.lastEventAt > idleTimeoutMs
    · rw [if_pos hev, ih]
      by_cases hk : e.1 = k
      · rw [if_pos (Or.inl ⟨hev, hk⟩)]
        by_cases hext : ∃ f ∈ t, now - f.2.lastEventAt > idleTimeoutMs ∧ f.1 = k
        · rw [if_pos hext]
        · rw [if_neg hext, hk]
          exact mapGet_mapDelete_self cs k
      · rw [mapGet_mapDelete_ne cs (fun hh => hk hh.symm)]
        by_cases hext : ∃ f ∈ t, now - f.2.lastEventAt > idleTimeoutMs ∧ f.1 = k
        · rw [if_pos hext, if_pos (Or.inr hext)]
        · rw [if_neg hext, if_neg ?hno]
          case hno =>
            rintro (h1 | h2)
            · exact hk h1.2
            · exact hext h2
    · rw [if_neg hev, ih]
      by_cases hext : ∃ f ∈ t, now - f.2.lastEventAt > idleTimeoutMs ∧ f.1 = k
      · rw [if_pos hext, if_pos (Or.inr hext)]
      · rw [if_neg hext, if_neg ?hno2]
        case hno2 =>
          rintro (h1 | h2)
          · exact hev h1.1
          · exact hext h2

theorem sweep_get (st : BrokerState) (idleTimeoutMs now : Int) (k : String) :
    mapGet (sweep st idleTimeoutMs now).1.clients k =
      if ∃ e ∈ st.clients, now - e.2.lastEventAt > idleTimeoutMs ∧ e.1 = k then
        none
      else mapGet st.clients k := by
  rw [sweep, sweepFold_fst]
  exact delFold_mapGet idleTimeoutMs now st.clients k st.clients

theorem sweep_get_evicted {st : BrokerState} {idleTimeoutMs now : Int}
    {sid : String} {c : SseClient} (hc : mapGet st.clients sid = some c)
    (hidle : now - c.lastEventAt > idleTimeoutMs) :
    mapGet (sweep st idleTimeoutMs now).1.clients sid = none := by
  rw [sweep_get]
  exact if_pos ⟨(sid, c), mapGet_some_mem hc, hidle, rfl⟩

theorem sweep_get_kept {st : BrokerState} {idleTimeoutMs now : Int}
    {sid : String} {c : SseClient} (hc : mapGet st.clients sid = some c)
    (hnd : (st.clients.map Prod.fst).Nodup)
    (hkeep : ¬ now - c.lastEventAt > idleTimeoutMs) :
    mapGet (sweep st idleTimeoutMs now).1.clients sid = some c := by
  rw [sweep_get, if_neg ?hno]
  · exact hc
  case hno =>
    rintro ⟨f, hf, hfev, hfk⟩
    have hfe : f = (sid, c) :=
      keys_nodup_entry_unique hnd hf (mapGet_some_mem hc) (by rw [hfk])
    rw [hfe] at hfev
    exact hkeep hfev

theorem sweep_keys_nodup (st : BrokerState) (idleTimeoutMs now : Int)
    (hnd : (st.clients.map Prod.fst).Nodup) :
    ((sweep st idleTimeoutMs now).1.clients.map Prod.fst).Nodup := by
  rw [sweep, sweepFold_fst]
  show ((st.clients.foldl _ st.clients).map Prod.fst).Nodup
  have hsub : ∀ (l cs : List (String × SseClient)),
      (l.foldl (fun cs e =>
        if now - e.2.lastEventAt > idleTimeoutMs then mapDelete cs e.1
        else cs) cs).Sublist cs := by
    intro l
    induction l with
    | nil => intro cs; exact List.Sublist.refl cs
    | cons e t ih =>
      intro cs
      rw [List.foldl_cons]
      by_cases hev : now - e.2.lastEventAt > idleTimeoutMs
      · rw [if_pos hev]
        exact (ih (mapDelete cs e.1)).trans (List.filter_sublist cs)
      · rw [if_neg hev]
        exact ih cs
  exact ((hsub st.clients st.clients).map Prod.fst).nodup hnd

/-! ## Claim C9 -/

/-- C9: at every heartbeat tick, for every attached session, when the time
elapsed since its last event delivery exceeds the configured idle timeout
its stream is force-closed (an end-stream write is emitted) and the
session is deregistered; otherwise a comment-only keep-alive heartbeat
line is written to its stream and the session stays registered.  In
particular a session idle longer than the idle timeout is evicted by the
next sweep. -/
theorem c9_heartbeat_sweep_evicts_or_keepalives (st : BrokerState)
    (idleTimeoutMs now : Int) (sid : String) (c : SseClient)
    (hc : mapGet st.clients sid = some c)
    (hnd : (st.clients.map Prod.fst).Nodup) :
    (now - c.lastEventAt > idleTimeoutMs →
      mapGet (sweep st idleTimeoutMs now).1.clients sid = none
      ∧ SseWrite.endStream c.streamId ∈ (sweep st idleTimeoutMs now).2)
    ∧ (¬ now - c.lastEventAt > idleTimeoutMs →
      mapGet (sweep st idleTimeoutMs now).1.clients sid = some c
      ∧ SseWrite.heartbeat c.streamId now ∈ (sweep st idleTimeoutMs now).2) := by
  have hmem : (sid, c) ∈ st.clients := mapGet_some_mem hc
  constructor
  · intro hidle
    refine ⟨sweep_get_evicted hc hidle, ?_⟩
    rw [sweep_snd]
    refine List.mem_map.mpr ⟨(sid, c), hmem, ?_⟩
    simp [hidle]
  · intro hidle
    refine ⟨sweep_get_kept hc hnd hidle, ?_⟩
    rw [sweep_snd]
    refine List.mem_map.mpr ⟨(sid, c), hmem, ?_⟩
    simp [hidle]

/-- Witness for C9 at a concrete broker with an idle session `x` (evicted)
and a fresh session `y` (kept alive). -/
theorem c9_witness :
    (mapGet (sweep ⟨[("x", ⟨"x", 1, 0, 0⟩), ("y", ⟨"y", 2, 0, 90⟩)], []⟩
        50 100).1.clients "x" = none
      ∧ SseWrite.endStream 1 ∈
        (sweep ⟨[("x", ⟨"x", 1, 0, 0⟩), ("y", ⟨"y", 2, 0, 90⟩)], []⟩ 50 100).2)
    ∧ (mapGet (sweep ⟨[("x", ⟨"x", 1, 0, 0⟩), ("y", ⟨"y", 2, 0, 90⟩)], []⟩
        50 100).1.clients "y" = some ⟨"y", 2, 0, 90⟩
      ∧ SseWrite.heartbeat 2 100 ∈
        (sweep ⟨[("x", ⟨"x", 1, 0, 0⟩), ("y", ⟨"y", 2, 0, 90⟩)], []⟩ 50 100).2) :=
  ⟨(c9_heartbeat_sweep_evicts_or_keepalives _ 50 100 "x" ⟨"x", 1, 0, 0⟩
      (by decide) (by decide)).1 (by decide),
   (c9_heartbeat_sweep_evicts_or_keepalives _ 50 100 "y" ⟨"y", 2, 0, 90⟩
      (by decide) (by decide)).2 (by decide)⟩

/-! ## Claim C10 -/

/-- C10: heartbeat keep-alive writes leave the session's `lastEventAt`
unchanged — the swept client record is returned intact — while the named
event writes of `send` and `broadcast` set it to the write time; hence the
idle clock is reset solely by delivered events, and a session that
receives only heartbeats is evicted by the first sweep whose time exceeds
its last delivery by more than the idle timeout. -/
theorem c10_heartbeat_frame_idle_clock (st : BrokerState)
    (idleTimeoutMs now : Int) (sid : String) (c : SseClient)
    (hc : mapGet st.clients sid = some c)
    (hnd : (st.clients.map Prod.fst).Nodup)
    (hkeep : ¬ now - c.lastEventAt > idleTimeoutMs) :
    mapGet (sweep st idleTimeoutMs now).1.clients sid = some c
    ∧ (∀ eventName d, mapGet (sendEvent st sid eventName d now).1.clients sid
        = some { c with lastEventAt := now })
    ∧ (∀ eventName build,
        mapGet (broadcastEvent st eventName build now).1.clients sid
          = some { c with lastEventAt := now })
    ∧ (∀ now2, now2 - c.lastEventAt > idleTimeoutMs →
        mapGet (sweep (sweep st idleTimeoutMs now).1 idleTimeoutMs
          now2).1.clients sid = none) := by
  refine ⟨sweep_get_kept hc hnd hkeep, ?_, ?_, ?_⟩
  · intro eventName d
    rw [sendEvent_of_some eventName d now hc]
    exact mapGet_mapSet_self _ _ _
  · intro eventName build
    exact broadcastEvent_get_mem st eventName build now sid c hnd
      (mapGet_some_mem hc)
  · intro now2 h2
    exact sweep_get_evicted (sweep_get_kept hc hnd hkeep) h2

/-- Witness for C10 at a concrete broker: the swept client keeps
`lastEventAt = 0`, a send and a broadcast bump it to the write time, and a
later sweep past the idle timeout evicts the heartbeat-only session. -/
theorem c10_witness :
    mapGet (sweep ⟨[("x", ⟨"x", 1, 0, 0⟩)], []⟩ 50 40).1.clients "x" =
      some ⟨"x", 1, 0, 0⟩
    ∧ (∀ eventName d,
        mapGet (sendEvent ⟨[("x", ⟨"x", 1, 0, 0⟩)], []⟩ "x" eventName d
          40).1.clients "x" = some ⟨"x", 1, 0, 40⟩)
    ∧ (∀ eventName build,
        mapGet (broadcastEvent ⟨[("x", ⟨"x", 1, 0, 0⟩)], []⟩ eventName build
          40).1.clients "x" = some ⟨"x", 1, 0, 40⟩)
    ∧ (∀ now2, now2 - (0 : Int) > 50 →
        mapGet (sweep (sweep ⟨[("x", ⟨"x", 1, 0, 0⟩)], []⟩ 50 40).1 50
          now2).1.clients "x" = none) :=
  c10_heartbeat_frame_idle_clock ⟨[("x", ⟨"x", 1, 0, 0⟩)], []⟩ 50 40 "x"
    ⟨"x", 1, 0, 0⟩ (by decide) (by decide) (by decide)

/-! ## Claim C5 -/

/-- C5 counterexample: a worker message that is not a JSON object carries
no id at all, yet with a session attached it is logged and dropped — no
broadcast write is emitted — contradicting the claim that every message
without an id is broadcast to every currently attached session. -/
theorem c5_cex_non_object_payload_dropped :
    ServerA.onMessage
        ⟨[], [], 0, ⟨[("s1", ⟨"s1", 1, 0, 0⟩)], [(1, "s1")]⟩⟩
        (CliPayload.nonObj 5) 10 =
      .ok (⟨[], [], 0, ⟨[("s1", ⟨"s1", 1, 0, 0⟩)], [(1, "s1")]⟩⟩, [])
    ∧ (⟨[], [], 0, ⟨[("s1", ⟨"s1", 1, 0, 0⟩)], [(1, "s1")]⟩⟩ :
        ServerA.St).broker.clients ≠ [] := by
  decide

/-- C5 (amended): for every OBJECT message emitted by the worker whose
extracted id matches no pending entry, or that carries no id, the router
broadcasts it as a `message` event to every currently attached session in
registration order, invoking the payload-producing function once per
session with that session's id; the pending map and armed timers are
untouched.  (Non-object worker payloads are logged and dropped without
broadcasting.) -/
theorem c5_amended_object_fallback_broadcast (st : ServerA.St) (b : RpcBody)
    (now : Int)
    (h : getRequestId b.pid = .ok none ∨
      ∃ id, getRequestId b.pid = .ok (some id) ∧ mapGet st.pending id = none) :
    ServerA.onMessage st (.obj b) now =
      .ok ({ st with broker := (broadcastEvent st.broker "message"
              (fun sid => ⟨sid, BodyVal.worker (.obj b)⟩) now).1 },
           st.broker.clients.map (fun e =>
             Out.sse (SseWrite.event e.2.streamId "message"
               ⟨e.1, BodyVal.worker (.obj b)⟩))) := by
  rcases h with h | ⟨id, hid, hpend⟩
  · simp [ServerA.onMessage, h, broadcastEvent_snd]
  · simp [ServerA.onMessage, hid, hpend, broadcastEvent_snd]

/-- Witness for C5 (amended) at a concrete router state with two attached
sessions and a message whose id matches no pending entry. -/
theorem c5_amended_witness :
    ServerA.onMessage
        ⟨[], [], 0, ⟨[("s1", ⟨"s1", 1, 0, 0⟩), ("s2", ⟨"s2", 2, 0, 0⟩)], []⟩⟩
        (.obj ⟨IdField.str "9", 7⟩) 5 =
      .ok ({ pending := [], timers := [], nextTimer := 0,
             broker := (broadcastEvent
               ⟨[("s1", ⟨"s1", 1, 0, 0⟩), ("s2", ⟨"s2", 2, 0, 0⟩)], []⟩
               "message"
               (fun sid => ⟨sid, BodyVal.worker (.obj ⟨IdField.str "9", 7⟩)⟩)
               5).1 },
           [Out.sse (SseWrite.event 1 "message"
              ⟨"s1", BodyVal.worker (.obj ⟨IdField.str "9", 7⟩)⟩),
            Out.sse (SseWrite.event 2 "message"
              ⟨"s2", BodyVal.worker (.obj ⟨IdField.str "9", 7⟩)⟩)]) :=
  c5_amended_object_fallback_broadcast
    ⟨[], [], 0, ⟨[("s1", ⟨"s1", 1, 0, 0⟩), ("s2", ⟨"s2", 2, 0, 0⟩)], []⟩⟩
    ⟨IdField.str "9", 7⟩ 5 (Or.inr ⟨"9", rfl, rfl⟩)

/-! ## Router helper lemmas -/

theorem mapSet_of_absent {α : Type} {m : List (String × α)} {k : String}
    (v : α) (h : mapGet m k = none) : mapSet m k v = m ++ [(k, v)] := by
  induction m with
  | nil => rfl
  | cons e t ih =>
    rw [mapGet_cons] at h
    by_cases he : e.1 = k
    · rw [if_pos he] at h; cases h
    · rw [if_neg he] at h
      simp [mapSet, he, ih h]

theorem ServerA.clearPending_of_some {st : St} {id : String}
    {p : PendingEntry} (h : mapGet st.pending id = some p) :
    clearPending st id =
      { st with pending := mapDelete st.pending id,
                timers := st.timers.filter (fun t => t.1 != p.timerId) } := by
  simp [clearPending, h]

theorem ServerB.removePending_of_some {st : St} {id : String}
    {p : PendingEntry} (h : mapGet st.pending id = some p) :
    removePending st id =
      ({ st with pending := mapDelete st.pending id,
                 timers := st.timers.filter (fun t => t.1 != p.timerId) },
       some p) := by
  simp [removePending, h]

theorem ServerB.removePending_of_none {st : St} {id : String}
    (h : mapGet st.pending id = none) :
    removePending st id = (st, none) := by
  simp [removePending, h]

/-! ## Exit-listener fold lemmas, revision A -/

theorem ServerA.exitFold_outs_mono (now : Int)
    (l : List (String × PendingEntry)) :
    ∀ (acc : ExitAcc) (x : Out), x ∈ acc.outs →
      x ∈ (l.foldl (exitStep now) acc).outs := by
  induction l with
  | nil => intro acc x hx; exact hx
  | cons e t ih =>
    intro acc x hx
    rw [List.foldl_cons]
    apply ih
    show x ∈ acc.outs ++ _
    exact List.mem_append_left _ hx

theorem ServerA.exitFold_streamView (now : Int)
    (l : List (String × PendingEntry)) :
    ∀ (acc : ExitAcc) (k : String),
      (mapGet ((l.foldl (exitStep now) acc).broker).clients k).map
          SseClient.streamId =
        (mapGet acc.broker.clients k).map SseClient.streamId := by
  induction l with
  | nil => intro acc k; rfl
  | cons e t ih =>
    intro acc k
    rw [List.foldl_cons, ih]
    exact sendEvent_streamView acc.broker e.2.sessionId "message" _ now k

theorem ServerA.exitFold_timers (now : Int)
    (l : List (String × PendingEntry)) :
    ∀ (acc : ExitAcc) (tt : Nat × String × String),
      tt ∈ (l.foldl (exitStep now) acc).timers →
        tt ∈ acc.timers ∧ ∀ e ∈ l, tt.1 ≠ e.2.timerId := by
  induction l with
  | nil =>
    intro acc tt h
    exact ⟨h, by intro e he; cases he⟩
  | cons e t ih =>
    intro acc tt h
    rw [List.foldl_cons] at h
    obtain ⟨h1, h2⟩ := ih _ tt h
    have h3 : tt ∈ acc.timers.filter (fun u => u.1 != e.2.timerId) := h1
    rw [List.mem_filter] at h3
    refine ⟨h3.1, ?_⟩
    intro f hf
    rcases List.mem_cons.mp hf with hf1 | hf1
    · rw [hf1]
      simpa using h3.2
    · exact h2 f hf1

theorem ServerA.exitFold_write_mem (now : Int)
    (l : List (String × PendingEntry)) :
    ∀ (acc : ExitAcc), ∀ e ∈ l, ∀ n : Nat,
      (mapGet acc.broker.clients e.2.sessionId).map SseClient.streamId =
        some n →
      Out.sse (SseWrite.event n "message"
        ⟨e.2.sessionId, BodyVal.proxyError
          (buildProxyErrorPayload e.1
            "mabl CLI process restarted; request cancelled." (-32001))⟩) ∈
        (l.foldl (exitStep now) acc).outs := by
  induction l with
  | nil => intro acc e he; cases he
  | cons f t ih =>
    intro acc e he n hn
    rw [List.foldl_cons]
    rcases List.mem_cons.mp he with he1 | he1
    · subst he1
      cases hcl : mapGet acc.broker.clients e.2.sessionId with
      | none => rw [hcl] at hn; cases hn
      | some c =>
        rw [hcl] at hn
        have hcn : c.streamId = n := by simpa using hn
        apply exitFold_outs_mono
        show _ ∈ acc.outs ++ ((sendEvent acc.broker e.2.sessionId "message"
          ⟨e.2.sessionId, BodyVal.proxyError
            (buildProxyErrorPayload e.1
              "mabl CLI process restarted; request cancelled."
              (-32001))⟩ now).2).map Out.sse
        rw [sendEvent_of_some _ _ _ hcl, hcn]
        simp
    · apply ih (exitStep now acc f) e he1 n
      rw [← hn]
      exact sendEvent_streamView acc.broker f.2.sessionId "message" _ now
        e.2.sessionId

/-! ## Exit-listener fold lemmas, revision B -/

theorem ServerB.exitFoldB_outs_mono (now : Int)
    (l : List (String × PendingEntry)) :
    ∀ (acc : ExitAcc) (x : Out), x ∈ acc.outs →
      x ∈ (l.foldl (exitStep now) acc).outs := by
  induction l with
  | nil => intro acc x hx; exact hx
  | cons e t ih =>
    intro acc x hx
    rw [List.foldl_cons]
    apply ih
    show x ∈ acc.outs ++ _
    exact List.mem_append_left _ hx

theorem ServerB.exitFoldB_streamView (now : Int)
    (l : List (String × PendingEntry)) :
    ∀ (acc : ExitAcc) (k : String),
      (mapGet ((l.foldl (exitStep now) acc).broker).clients k).map
          SseClient.streamId =
        (mapGet acc.broker.clients k).map SseClient.streamId := by
  induction l with
  | nil => intro acc k; rfl
  | cons e t ih =>
    intro acc k
    rw [List.foldl_cons, ih]
    exact sendEvent_streamView acc.broker e.2.sessionId "message" _ now k

theorem ServerB.exitFoldB_write_mem (now : Int)
    (l : List (String × PendingEntry)) :
    ∀ (acc : ExitAcc), ∀ e ∈ l, ∀ n : Nat,
      (mapGet acc.broker.clients e.2.sessionId).map SseClient.streamId =
        some n →
      Out.sse (SseWrite.event n "message"
        ⟨e.2.sessionId, BodyVal.proxyError
          (buildProxyErrorPayload e.1
            "mabl CLI process restarted; request cancelled." (-32001))⟩) ∈
        (l.foldl (exitStep now) acc).outs := by
  induction l with
  | nil => intro acc e he; cases he
  | cons f t ih =>
    intro acc e he n hn
    rw [List.foldl_cons]
    rcases List.mem_cons.mp he with he1 | he1
    · subst he1
      cases hcl : mapGet acc.broker.clients e.2.sessionId with
      | none => rw [hcl] at hn; cases hn
      | some c =>
        rw [hcl] at hn
        have hcn : c.streamId = n := by simpa using hn
        apply exitFoldB_outs_mono
        show _ ∈ acc.outs ++ ((sendEvent acc.broker e.2.sessionId "message"
          ⟨e.2.sessionId, BodyVal.proxyError
            (buildProxyErrorPayload e.1
              "mabl CLI process restarted; request cancelled."
              (-32001))⟩ now).2).map Out.sse
        rw [sendEvent_of_some _ _ _ hcl, hcn]
        simp
    · apply ih (exitStep now acc f) e he1 n
      rw [← hn]
      exact sendEvent_streamView acc.broker f.2.sessionId "message" _ now
        e.2.sessionId

theorem ServerB.exitFold_outs_shape (now : Int)
    (l : List (String × PendingEntry)) :
    ∀ (acc : ExitAcc) (x : Out), x ∈ (l.foldl (exitStep now) acc).outs →
      x ∈ acc.outs ∨ ∃ e ∈ l, ∃ n : Nat,
        x = Out.sse (SseWrite.event n "message"
          ⟨e.2.sessionId, BodyVal.proxyError
            (buildProxyErrorPayload e.1
              "mabl CLI process restarted; request cancelled." (-32001))⟩) := by
  induction l with
  | nil => intro acc x hx; exact Or.inl hx
  | cons f t ih =>
    intro acc x hx
    rw [List.foldl_cons] at hx
    rcases ih _ x hx with h1 | ⟨e, he, n, hn⟩
    · have h2 : x ∈ acc.outs ++ ((sendEvent acc.broker f.2.sessionId "message"
          ⟨f.2.sessionId, BodyVal.proxyError
            (buildProxyErrorPayload f.1
              "mabl CLI process restarted; request cancelled."
              (-32001))⟩ now).2).map Out.sse := h1
      rcases List.mem_append.mp h2 with h3 | h3
      · exact Or.inl h3
      · right
        refine ⟨f, List.mem_cons_self f t, ?_⟩
        cases hcl : mapGet acc.broker.clients f.2.sessionId with
        | none =>
          rw [sendEvent_of_none _ _ _ hcl] at h3
          cases h3
        | some c =>
          rw [sendEvent_of_some _ _ _ hcl] at h3
          simp only [List.map_cons, List.map_nil, List.mem_singleton] at h3
          exact ⟨c.streamId, h3⟩
    · exact Or.inr ⟨e, List.mem_cons_of_mem f he, n, hn⟩

/-! ## Claim C8 -/

/-- C8: on worker exit, the pending set is cleared entirely, every pending
entry's timeout is disarmed, and for every pending entry whose owning
session has an attached stream, that stream receives the synthetic
cancellation error — a jsonrpc error payload reusing the original request
id with the restarted/request-cancelled message and code -32001. -/
theorem c8_exit_clears_and_cancels_all_pending (st : ServerA.St)
    (now : Int) :
    (ServerA.onExit st now).1.pending = []
    ∧ (∀ e ∈ st.pending, ∀ tt ∈ (ServerA.onExit st now).1.timers,
        tt.1 ≠ e.2.timerId)
    ∧ (∀ e ∈ st.pending, ∀ c, mapGet st.broker.clients e.2.sessionId = some c →
        Out.sse (SseWrite.event c.streamId "message"
          ⟨e.2.sessionId, BodyVal.proxyError
            (buildProxyErrorPayload e.1
              "mabl CLI process restarted; request cancelled." (-32001))⟩) ∈
          (ServerA.onExit st now).2) := by
  refine ⟨rfl, ?_, ?_⟩
  · intro e he tt htt
    exact (ServerA.exitFold_timers now st.pending
      ⟨st.timers, st.broker, []⟩ tt htt).2 e he
  · intro e he c hc
    have hn : (mapGet (⟨st.timers, st.broker, []⟩ :
          ServerA.ExitAcc).broker.clients e.2.sessionId).map
        SseClient.streamId = some c.streamId := by
      show (mapGet st.broker.clients e.2.sessionId).map SseClient.streamId = _
      rw [hc]
      rfl
    exact ServerA.exitFold_write_mem now st.pending
      ⟨st.timers, st.broker, []⟩ e he c.streamId hn

/-- Witness for C8: worker exit with two pending requests owned by two
attached sessions — the pending set empties and session `sA`'s stream
receives the cancellation error for id `1`. -/
theorem c8_witness :
    (ServerA.onExit
        ⟨[("1", ⟨"sA", 0, 0⟩), ("2", ⟨"sB", 0, 1⟩)],
         [(0, "1", "sA"), (1, "2", "sB")], 2,
         ⟨[("sA", ⟨"sA", 1, 0, 0⟩), ("sB", ⟨"sB", 2, 0, 0⟩)],
          [(1, "sA"), (2, "sB")]⟩⟩ 50).1.pending = []
    ∧ Out.sse (SseWrite.event 1 "message"
        ⟨"sA", BodyVal.proxyError
          ⟨"1", "mabl CLI process restarted; request cancelled.", -32001⟩⟩) ∈
      (ServerA.onExit
        ⟨[("1", ⟨"sA", 0, 0⟩), ("2", ⟨"sB", 0, 1⟩)],
         [(0, "1", "sA"), (1, "2", "sB")], 2,
         ⟨[("sA", ⟨"sA", 1, 0, 0⟩), ("sB", ⟨"sB", 2, 0, 0⟩)],
          [(1, "sA"), (2, "sB")]⟩⟩ 50).2 :=
  ⟨(c8_exit_clears_and_cancels_all_pending _ 50).1,
   (c8_exit_clears_and_cancels_all_pending _ 50).2.2 ("1", ⟨"sA", 0, 0⟩)
     (by decide) ⟨"sA", 1, 0, 0⟩ (by decide)⟩

/-! ## Claim C1 -/

/-- C1: mutual exclusion of the three removal paths for a pending request.
While an entry is registered under `id`: (1) a matching worker response
removes it, disarms its timeout and delivers the payload to its owning
session's stream; (2) its timeout firing removes it and delivers the
synthetic timeout error there; (3) worker exit removes every entry and
delivers the cancellation error for it.  Once the entry is removed — the
take-if-present `removePending` being the single authoritative presence
check — the other paths are no-ops against it: (4) a still-armed timeout
for `id` fires as a pure no-op (only the fired timer is disarmed, nothing
is delivered), (5) a cleared timer cannot fire at all, (6) a late response
for `id` leaves the pending map and timers untouched, and (7) worker exit
delivers no payload referencing `id`. -/
theorem c1_pending_removal_mutual_exclusion (st : ServerB.St) (id : String)
    (now : Int) :
    (∀ p b, mapGet st.pending id = some p →
      getRequestId b.pid = .ok (some id) →
      ∃ st1 outs, ServerB.onMessage st (.obj b) now = .ok (st1, outs)
        ∧ mapGet st1.pending id = none
        ∧ (∀ tt ∈ st1.timers, tt.1 ≠ p.timerId)
        ∧ (∀ c, mapGet st.broker.clients p.sessionId = some c →
            Out.sse (SseWrite.event c.streamId "message"
              ⟨p.sessionId, BodyVal.worker (.obj b)⟩) ∈ outs))
    ∧ (∀ p, mapGet st.pending id = some p →
      st.timers.find? (fun t => t.1 == p.timerId) = some (p.timerId, id) →
      ∃ st1 outs, ServerB.fireTimeout st p.timerId now = some (st1, outs)
        ∧ mapGet st1.pending id = none
        ∧ (∀ c, mapGet st.broker.clients p.sessionId = some c →
            Out.sse (SseWrite.event c.streamId "message"
              ⟨p.sessionId, BodyVal.proxyError (buildProxyErrorPayload id
                "Timed out waiting for response from mabl CLI.")⟩) ∈ outs))
    ∧ (∀ p, mapGet st.pending id = some p →
      (ServerB.onExit st now).1.pending = []
      ∧ (∀ c, mapGet st.broker.clients p.sessionId = some c →
          Out.sse (SseWrite.event c.streamId "message"
            ⟨p.sessionId, BodyVal.proxyError (buildProxyErrorPayload id
              "mabl CLI process restarted; request cancelled." (-32001))⟩) ∈
            (ServerB.onExit st now).2))
    ∧ (∀ tn, mapGet st.pending id = none →
      st.timers.find? (fun t => t.1 == tn) = some (tn, id) →
      ServerB.fireTimeout st tn now =
        some ({ st with timers := st.timers.filter (fun u => u.1 != tn) }, []))
    ∧ (∀ tn, (∀ rid, (tn, rid) ∉ st.timers) →
      ServerB.fireTimeout st tn now = none)
    ∧ (∀ b, mapGet st.pending id = none →
      getRequestId b.pid = .ok (some id) →
      ∃ st1 outs, ServerB.onMessage st (.obj b) now = .ok (st1, outs)
        ∧ st1.pending = st.pending ∧ st1.timers = st.timers)
    ∧ (mapGet st.pending id = none →
      ∀ strm sess pe, Out.sse (SseWrite.event strm "message"
          ⟨sess, BodyVal.proxyError pe⟩) ∈ (ServerB.onExit st now).2 →
        pe.id ≠ id) := by
  refine ⟨?_, ?_, ?_, ?_, ?_, ?_, ?_⟩
  · -- (1) resolution removes, disarms, delivers
    intro p b hp hb
    refine ⟨{ st with
        pending := mapDelete st.pending id,
        timers := st.timers.filter (fun t => t.1 != p.timerId),
        broker := (sendEvent st.broker p.sessionId "message"
          ⟨p.sessionId, BodyVal.worker (.obj b)⟩ now).1 },
        (if p.hasResponder then [Out.http 200 (HttpBody.worker (.obj b))]
         else []) ++
          ((sendEvent st.broker p.sessionId "message"
            ⟨p.sessionId, BodyVal.worker (.obj b)⟩ now).2.map Out.sse),
        ?_, ?_, ?_, ?_⟩
    · simp only [ServerB.onMessage, hb, ServerB.removePending_of_some hp]
    · exact mapGet_mapDelete_self st.pending id
    · intro tt htt
      have h3 : tt ∈ st.timers.filter (fun t => t.1 != p.timerId) := htt
      rw [List.mem_filter] at h3
      simpa using h3.2
    · intro c hc
      rw [sendEvent_of_some _ _ _ hc]
      simp
  · -- (2) timeout firing removes and delivers
    intro p hp hfind
    refine ⟨{ st with
        pending := mapDelete st.pending id,
        timers := (st.timers.filter (fun u => u.1 != p.timerId)).filter
          (fun t => t.1 != p.timerId),
        broker := (sendEvent st.broker p.sessionId "message"
          ⟨p.sessionId, BodyVal.proxyError (buildProxyErrorPayload id
            "Timed out waiting for response from mabl CLI.")⟩ now).1 },
        (if p.hasResponder then
          [Out.http 504 (HttpBody.proxyErr (buildProxyErrorPayload id
            "Timed out waiting for response from mabl CLI."))]
         else []) ++
          ((sendEvent st.broker p.sessionId "message"
            ⟨p.sessionId, BodyVal.proxyError (buildProxyErrorPayload id
              "Timed out waiting for response from mabl CLI.")⟩ now).2.map
            Out.sse),
        ?_, ?_, ?_⟩
    · have hp' : mapGet ({ st with
          timers := st.timers.filter (fun u => u.1 != p.timerId) } :
          ServerB.St).pending id = some p := hp
      simp only [ServerB.fireTimeout, hfind,
        ServerB.removePending_of_some hp']
    · exact mapGet_mapDelete_self st.pending id
    · intro c hc
      rw [sendEvent_of_some _ _ _ hc]
      simp
  · -- (3) exit removes everything and delivers the cancellation error
    intro p hp
    refine ⟨rfl, ?_⟩
    intro c hc
    have hn : (mapGet (⟨st.timers, st.broker, []⟩ :
          ServerB.ExitAcc).broker.clients p.sessionId).map
        SseClient.streamId = some c.streamId := by
      show (mapGet st.broker.clients p.sessionId).map SseClient.streamId = _
      rw [hc]
      rfl
    exact ServerB.exitFoldB_write_mem now st.pending
      ⟨st.timers, st.broker, []⟩ (id, p) (mapGet_some_mem hp) c.streamId hn
  · -- (4) timeout firing against a removed entry is a no-op
    intro tn hpnone hfind
    have hpnone' : mapGet ({ st with
        timers := st.timers.filter (fun u => u.1 != tn) } :
        ServerB.St).pending id = none := hpnone
    simp only [ServerB.fireTimeout, hfind,
      ServerB.removePending_of_none hpnone']
  · -- (5) a cleared timer cannot fire
    intro tn htn
    have hfind : st.timers.find? (fun t => t.1 == tn) = none := by
      apply List.find?_eq_none.mpr
      intro x hx
      simp only [beq_iff_eq]
      intro hx1
      apply htn x.2
      have hxx : (tn, x.2) = x := by rw [← hx1]
      rw [hxx]
      exact hx
    simp [ServerB.fireTimeout, hfind]
  · -- (6) a late response for a removed id leaves pending and timers alone
    intro b hpnone hb
    refine ⟨{ st with broker := (broadcastEvent st.broker "message"
        (fun sid => ⟨sid, BodyVal.worker (.obj b)⟩) now).1 },
      (broadcastEvent st.broker "message"
        (fun sid => ⟨sid, BodyVal.worker (.obj b)⟩) now).2.map Out.sse,
      ?_, rfl, rfl⟩
    simp only [ServerB.onMessage, hb,
      ServerB.removePending_of_none hpnone]
  · -- (7) exit delivers nothing referencing a removed id
    intro hpnone strm sess pe hmem
    rcases ServerB.exitFold_outs_shape now st.pending
        ⟨st.timers, st.broker, []⟩ _ hmem with h1 | ⟨e, he, n, hn⟩
    · cases h1
    · simp only [Out.sse.injEq, SseWrite.event.injEq, EventData.mk.injEq,
        BodyVal.proxyError.injEq] at hn
      have hpe : pe.id = e.1 := by
        rw [hn.2.2.2]
        rfl
      intro hcontra
      exact mapGet_eq_none hpnone e he (by rw [← hpe, hcontra])

/-- Witness for C1: a router with pending id `7` (session `s1` attached,
timer 0 armed) exercises the three removal paths, and a router whose entry
for `7` is already removed (timer 0 still armed) exercises the no-op
paths. -/
theorem c1_witness :
    (∃ st1 outs, ServerB.onMessage
        ⟨[("7", ⟨"s1", 0, 0, false⟩)], [(0, "7")], 1,
         ⟨[("s1", ⟨"s1", 1, 0, 0⟩)], [(1, "s1")]⟩⟩
        (.obj ⟨.str "7", 42⟩) 100 = .ok (st1, outs)
      ∧ mapGet st1.pending "7" = none
      ∧ (∀ tt ∈ st1.timers, tt.1 ≠ 0)
      ∧ (∀ c, mapGet (⟨[("s1", ⟨"s1", 1, 0, 0⟩)], [(1, "s1")]⟩ :
            BrokerState).clients "s1" = some c →
          Out.sse (SseWrite.event c.streamId "message"
            ⟨"s1", BodyVal.worker (.obj ⟨.str "7", 42⟩)⟩) ∈ outs))
    ∧ (∃ st1 outs, ServerB.fireTimeout
        ⟨[("7", ⟨"s1", 0, 0, false⟩)], [(0, "7")], 1,
         ⟨[("s1", ⟨"s1", 1, 0, 0⟩)], [(1, "s1")]⟩⟩ 0 100 = some (st1, outs)
      ∧ mapGet st1.pending "7" = none)
    ∧ (ServerB.onExit
        ⟨[("7", ⟨"s1", 0, 0, false⟩)], [(0, "7")], 1,
         ⟨[("s1", ⟨"s1", 1, 0, 0⟩)], [(1, "s1")]⟩⟩ 100).1.pending = []
    ∧ ServerB.fireTimeout
        ⟨[], [(0, "7")], 1, ⟨[("s1", ⟨"s1", 1, 0, 0⟩)], [(1, "s1")]⟩⟩ 0 100 =
      some ({ pending := [], timers := [], nextTimer := 1,
              broker := ⟨[("s1", ⟨"s1", 1, 0, 0⟩)], [(1, "s1")]⟩ }, [])
    ∧ ServerB.fireTimeout
        ⟨[("7", ⟨"s1", 0, 0, false⟩)], [(0, "7")], 1,
         ⟨[("s1", ⟨"s1", 1, 0, 0⟩)], [(1, "s1")]⟩⟩ 5 100 = none
    ∧ (∃ st1 outs, ServerB.onMessage
        ⟨[], [(0, "7")], 1, ⟨[("s1", ⟨"s1", 1, 0, 0⟩)], [(1, "s1")]⟩⟩
        (.obj ⟨.str "7", 42⟩) 100 = .ok (st1, outs)
      ∧ st1.pending = [] ∧ st1.timers = [(0, "7")])
    ∧ (∀ strm sess pe, Out.sse (SseWrite.event strm "message"
        ⟨sess, BodyVal.proxyError pe⟩) ∈
          (ServerB.onExit
            ⟨[], [(0, "7")], 1,
             ⟨[("s1", ⟨"s1", 1, 0, 0⟩)], [(1, "s1")]⟩⟩ 100).2 →
        pe.id ≠ "7") := by
  refine ⟨?_, ?_, ?_, ?_, ?_, ?_, ?_⟩
  · obtain ⟨st1, outs, h1, h2, h3, h4⟩ :=
      (c1_pending_removal_mutual_exclusion
        ⟨[("7", ⟨"s1", 0, 0, false⟩)], [(0, "7")], 1,
         ⟨[("s1", ⟨"s1", 1, 0, 0⟩)], [(1, "s1")]⟩⟩ "7" 100).1
        ⟨"s1", 0, 0, false⟩ ⟨.str "7", 42⟩ (by decide) (by decide)
    exact ⟨st1, outs, h1, h2, h3, h4⟩
  · obtain ⟨st1, outs, h1, h2, _⟩ :=
      (c1_pending_removal_mutual_exclusion
        ⟨[("7", ⟨"s1", 0, 0, false⟩)], [(0, "7")], 1,
         ⟨[("s1", ⟨"s1", 1, 0, 0⟩)], [(1, "s1")]⟩⟩ "7" 100).2.1
        ⟨"s1", 0, 0, false⟩ (by decide) (by decide)
    exact ⟨st1, outs, h1, h2⟩
  · exact ((c1_pending_removal_mutual_exclusion
      ⟨[("7", ⟨"s1", 0, 0, false⟩)], [(0, "7")], 1,
       ⟨[("s1", ⟨"s1", 1, 0, 0⟩)], [(1, "s1")]⟩⟩ "7" 100).2.2.1
      ⟨"s1", 0, 0, false⟩ (by decide)).1
  · exact (c1_pending_removal_mutual_exclusion
      ⟨[], [(0, "7")], 1, ⟨[("s1", ⟨"s1", 1, 0, 0⟩)], [(1, "s1")]⟩⟩
      "7" 100).2.2.2.1 0 (by decide) (by decide)
  · exact (c1_pending_removal_mutual_exclusion
      ⟨[("7", ⟨"s1", 0, 0, false⟩)], [(0, "7")], 1,
       ⟨[("s1", ⟨"s1", 1, 0, 0⟩)], [(1, "s1")]⟩⟩ "7" 100).2.2.2.2.1 5
      (by intro rid h; simp at h)
  · obtain ⟨st1, outs, h1, h2, h3⟩ :=
      (c1_pending_removal_mutual_exclusion
        ⟨[], [(0, "7")], 1, ⟨[("s1", ⟨"s1", 1, 0, 0⟩)], [(1, "s1")]⟩⟩
        "7" 100).2.2.2.2.2.1 ⟨.str "7", 42⟩ (by decide) (by decide)
    exact ⟨st1, outs, h1, h2, h3⟩
  · exact (c1_pending_removal_mutual_exclusion
      ⟨[], [(0, "7")], 1, ⟨[("s1", ⟨"s1", 1, 0, 0⟩)], [(1, "s1")]⟩⟩
      "7" 100).2.2.2.2.2.2 (by decide)

/-! ## Claim C4 -/

/-- C4 counterexample: pending id `7` owned by attached session `s1`; the
timeout fires first and delivers the synthetic timeout error to `s1`; yet
when the worker's late response carrying id `7` arrives afterwards, it IS
delivered to `s1`'s stream (stream 1) — through the unknown-id broadcast
fallback — contradicting the claim that no late worker response carrying
that id is delivered to that session afterward. -/
theorem c4_cex_late_response_delivered_to_owner :
    ServerB.fireTimeout
        ⟨[("7", ⟨"s1", 0, 0, false⟩)], [(0, "7")], 1,
         ⟨[("s1", ⟨"s1", 1, 0, 0⟩)], [(1, "s1")]⟩⟩ 0 100 =
      some (⟨[], [], 1, ⟨[("s1", ⟨"s1", 1, 0, 100⟩)], [(1, "s1")]⟩⟩,
        [Out.sse (SseWrite.event 1 "message"
          ⟨"s1", BodyVal.proxyError
            ⟨"7", "Timed out waiting for response from mabl CLI.",
             -32000⟩⟩)])
    ∧ ServerB.onMessage
        ⟨[], [], 1, ⟨[("s1", ⟨"s1", 1, 0, 100⟩)], [(1, "s1")]⟩⟩
        (.obj ⟨.str "7", 42⟩) 200 =
      .ok (⟨[], [], 1, ⟨[("s1", ⟨"s1", 1, 0, 200⟩)], [(1, "s1")]⟩⟩,
        [Out.sse (SseWrite.event 1 "message"
          ⟨"s1", BodyVal.worker (.obj ⟨.str "7", 42⟩)⟩)]) := by
  decide

/-- C4 (amended): when a pending request's timeout fires before a matching
worker response arrives, the owning session receives a synthetic error
referencing the request id with the timeout message, and no late worker
response carrying that id is delivered to that session afterwards AS A
REQUEST-CORRELATED (targeted) SEND: the entry is gone, so a late response
leaves the pending map untouched and instead takes the unknown-id fallback,
being broadcast to every attached session — which may include the owner. -/
theorem c4_amended_timeout_then_late_response (st : ServerB.St)
    (id : String) (p : ServerB.PendingEntry) (now now2 : Int)
    (hp : mapGet st.pending id = some p)
    (hfind : st.timers.find? (fun t => t.1 == p.timerId) =
      some (p.timerId, id)) :
    ∃ st1 outs1, ServerB.fireTimeout st p.timerId now = some (st1, outs1)
      ∧ mapGet st1.pending id = none
      ∧ (∀ c, mapGet st.broker.clients p.sessionId = some c →
          Out.sse (SseWrite.event c.streamId "message"
            ⟨p.sessionId, BodyVal.proxyError (buildProxyErrorPayload id
              "Timed out waiting for response from mabl CLI.")⟩) ∈ outs1)
      ∧ (∀ b, getRequestId b.pid = .ok (some id) →
          ServerB.onMessage st1 (.obj b) now2 =
            .ok ({ st1 with broker := (broadcastEvent st1.broker "message"
                (fun sid => ⟨sid, BodyVal.worker (.obj b)⟩) now2).1 },
              st1.broker.clients.map (fun e =>
                Out.sse (SseWrite.event e.2.streamId "message"
                  ⟨e.1, BodyVal.worker (.obj b)⟩)))) := by
  refine ⟨{ st with
      pending := mapDelete st.pending id,
      timers := (st.timers.filter (fun u => u.1 != p.timerId)).filter
        (fun t => t.1 != p.timerId),
      broker := (sendEvent st.broker p.sessionId "message"
        ⟨p.sessionId, BodyVal.proxyError (buildProxyErrorPayload id
          "Timed out waiting for response from mabl CLI.")⟩ now).1 },
      (if p.hasResponder then
        [Out.http 504 (HttpBody.proxyErr (buildProxyErrorPayload id
          "Timed out waiting for response from mabl CLI."))]
       else []) ++
        ((sendEvent st.broker p.sessionId "message"
          ⟨p.sessionId, BodyVal.proxyError (buildProxyErrorPayload id
            "Timed out waiting for response from mabl CLI.")⟩ now).2.map
          Out.sse),
      ?_, ?_, ?_, ?_⟩
  · have hp' : mapGet ({ st with
        timers := st.timers.filter (fun u => u.1 != p.timerId) } :
        ServerB.St).pending id = some p := hp
    simp only [ServerB.fireTimeout, hfind,
      ServerB.removePending_of_some hp']
  · exact mapGet_mapDelete_self st.pending id
  · intro c hc
    rw [sendEvent_of_some _ _ _ hc]
    simp
  · intro b hb
    have hnone : mapGet ({ st with
        pending := mapDelete st.pending id,
        timers := (st.timers.filter (fun u => u.1 != p.timerId)).filter
          (fun t => t.1 != p.timerId),
        broker := (sendEvent st.broker p.sessionId "message"
          ⟨p.sessionId, BodyVal.proxyError (buildProxyErrorPayload id
            "Timed out waiting for response from mabl CLI.")⟩ now).1 } :
        ServerB.St).pending id = none :=
      mapGet_mapDelete_self st.pending id
    simp only [ServerB.onMessage, hb,
      ServerB.removePending_of_none hnone, broadcastEvent_snd]
    simp [List.map_map]

/-- Witness for C4 (amended) at the concrete scenario of the spec: pending
id `7`, session `s1` attached, timeout fires, then a late `7` response. -/
theorem c4_amended_witness :
    ∃ st1 outs1, ServerB.fireTimeout
        ⟨[("7", ⟨"s1", 0, 0, false⟩)], [(0, "7")], 1,
         ⟨[("s1", ⟨"s1", 1, 0, 0⟩)], [(1, "s1")]⟩⟩ 0 100 = some (st1, outs1)
      ∧ mapGet st1.pending "7" = none
      ∧ (∀ c, mapGet (⟨[("s1", ⟨"s1", 1, 0, 0⟩)], [(1, "s1")]⟩ :
            BrokerState).clients "s1" = some c →
          Out.sse (SseWrite.event c.streamId "message"
            ⟨"s1", BodyVal.proxyError (buildProxyErrorPayload "7"
              "Timed out waiting for response from mabl CLI.")⟩) ∈ outs1)
      ∧ (∀ b, getRequestId b.pid = .ok (some "7") →
          ServerB.onMessage st1 (.obj b) 200 =
            .ok ({ st1 with broker := (broadcastEvent st1.broker "message"
                (fun sid => ⟨sid, BodyVal.worker (.obj b)⟩) 200).1 },
              st1.broker.clients.map (fun e =>
                Out.sse (SseWrite.event e.2.streamId "message"
                  ⟨e.1, BodyVal.worker (.obj b)⟩)))) :=
  c4_amended_timeout_then_late_response
    ⟨[("7", ⟨"s1", 0, 0, false⟩)], [(0, "7")], 1,
     ⟨[("s1", ⟨"s1", 1, 0, 0⟩)], [(1, "s1")]⟩⟩ "7" ⟨"s1", 0, 0, false⟩
    100 200 (by decide) (by decide)

/-! ## Claim C7 -/

/-- C7 counterexample: a submission reusing the id `7` of an entry already
pending overwrites that entry at registration; when the forward then
fails, the rollback deletes the id outright, so the pending map ends up
EMPTY rather than "as if the call had never registered it" (which would
still hold the prior entry) — the 503 is reported, but state is not
unchanged on error. -/
theorem c7_cex_duplicate_id_rollback_loses_prior_entry :
    ServerA.messageHandler
        ⟨[("7", ⟨"sOld", 0, 0⟩)], [(0, "7", "sOld")], 1, ⟨[], []⟩⟩
        "sNew" ⟨.str "7", 9⟩ false 5 =
      (⟨[], [(0, "7", "sOld")], 2, ⟨[], []⟩⟩,
       [Out.http 503 (HttpBody.errorMsg "mabl CLI process unavailable.")])
    ∧ (⟨[("7", ⟨"sOld", 0, 0⟩)], [(0, "7", "sOld")], 1, ⟨[], []⟩⟩ :
        ServerA.St).pending ≠
      (⟨[], [(0, "7", "sOld")], 2, ⟨[], []⟩⟩ : ServerA.St).pending := by
  decide

/-- C7 (amended): for every submission whose forward to the worker fails,
the handler answers 503 service-unavailable and removes the pending entry
registered under that call's id; PROVIDED no entry was already pending
under the same id before the call, the pending map is left exactly as if
the call had never registered it.  (A pre-existing entry under the same id
is overwritten at registration and lost by the rollback.) -/
theorem c7_amended_forward_failure_rollback (st : ServerA.St)
    (session : String) (b : RpcBody) (now : Int) (rid? : Option String)
    (hb : getRequestId b.pid = .ok rid?)
    (hfresh : ∀ id, rid? = some id → mapGet st.pending id = none) :
    (ServerA.messageHandler st session b false now).1.pending = st.pending
    ∧ (ServerA.messageHandler st session b false now).2 =
      [Out.http 503 (HttpBody.errorMsg "mabl CLI process unavailable.")] := by
  cases rid? with
  | none =>
    constructor
    · simp [ServerA.messageHandler, hb]
    · simp [ServerA.messageHandler, hb]
  | some rid =>
    have hf := hfresh rid rfl
    constructor
    · simp only [ServerA.messageHandler, hb, Bool.false_eq_true, if_false]
      rw [ServerA.clearPending_of_some (mapGet_mapSet_self _ _ _)]
      show mapDelete (mapSet st.pending rid _) rid = st.pending
      rw [mapSet_of_absent _ hf, mapDelete_append_singleton _ hf]
    · simp only [ServerA.messageHandler, hb, Bool.false_eq_true, if_false]

/-- Witness for C7 (amended): a fresh id `7` submitted while no entry is
pending, with the forward failing — 503 and an unchanged (empty) map. -/
theorem c7_amended_witness :
    (ServerA.messageHandler ⟨[], [], 0, ⟨[], []⟩⟩ "s1" ⟨.str "7", 9⟩
        false 5).1.pending = (⟨[], [], 0, ⟨[], []⟩⟩ : ServerA.St).pending
    ∧ (ServerA.messageHandler ⟨[], [], 0, ⟨[], []⟩⟩ "s1" ⟨.str "7", 9⟩
        false 5).2 =
      [Out.http 503 (HttpBody.errorMsg "mabl CLI process unavailable.")] :=
  c7_amended_forward_failure_rollback ⟨[], [], 0, ⟨[], []⟩⟩ "s1"
    ⟨.str "7", 9⟩ 5 (some "7") rfl (fun _ _ => rfl)

end MablProxy
